import Mathlib

/-!
A shallow embedding of the job/sentence parsing pipeline implemented in
`src/reynir/reynir.py` (the Greynir high-level wrapper around its tokenizer,
parser and reducer), together with theorems checking the natural-language
specification of that module.

The external collaborators (tokenizer, grammar engine, reducer, tree query
layer, language classifier) are not part of the module under verification;
they are modelled as an abstract environment `Env` of functions, polymorphic
in the opaque parse-forest type `F`.  Python object state is modelled by
explicit state passing; Python attribute dictionaries (which matter for the
`_Sentence.load` code path, which builds an instance by direct `__dict__`
assignment) are modelled by records whose fields are `Option`-wrapped:
`none` means the attribute is absent, so reading it raises `AttributeError`.
Wall-clock timing fields (`_parse_time`, `_reduce_time`) are omitted: they
carry no decidable content.  Floating-point arithmetic is modelled over `ℚ`
(progress ratios, which are exact divisions) and `ℝ` (the ambiguity
accumulator, which uses a real power).
-/

namespace Greynir

/-- A token as produced by the tokenizer: kind, surface text and semantic
value.  The semantic value is opaque to this layer; we model it as an
integer.  Mirrors the `(kind, txt, val)` triple of `tokenizer.Tok`. -/
structure Tok where
  kind : Nat
  txt : String
  val : Int
deriving DecidableEq

/-- The `ParseError` exception of `fastparser.py` as observed by this layer:
a message and an optional error token index. -/
structure ParseError where
  msg : String
  token_index : Option Nat
deriving DecidableEq

/-- The Python exceptions this layer can raise or observe. -/
inductive PyErr where
  | attributeError : PyErr
  | assertionError : PyErr
  | valueError : PyErr
deriving DecidableEq

/-- Reading a Python attribute: `none` means the attribute is missing from
the object dictionary, so the read raises `AttributeError`. -/
def getAttr {α : Type} : Option α → Except PyErr α
  | none => .error .attributeError
  | some a => .ok a

/-- Modelled from the spec: a node of the tree-query layer (`simpletree.py`
is not under `src/`).  Each descendant node exposes terminal status, text,
lemma, terminal category (`tcat`), BIN category (`cat`), lemma category,
variants, token index and IFD tags, per section 6 of the specification. -/
structure TreeNode where
  is_terminal : Bool
  text : String
  lemma_ : String
  tcat : String
  cat : String
  lemma_cat : String
  all_variants : List String
  index : Nat
  ifd_tags : List String
deriving DecidableEq

/-- Modelled from the spec: the serialized head of a simplified tree
(`SimpleTree._head` in `simpletree.py`, not under `src/`).  The persisted
head determines the tree's descendant nodes, in left-to-right order. -/
structure TreeHead where
  nodes : List TreeNode
deriving DecidableEq

/-- Modelled from the spec: the `SimpleTree` query view over a reduced parse
tree (`simpletree.py` is not under `src/`).  A simplified tree is determined
by its serialized head. -/
structure SimpleTree where
  head : TreeHead
deriving DecidableEq

/-- Modelled from the spec: `SimpleTree.descendants` yields the nodes of the
tree; they are a function of the persisted head. -/
def SimpleTree.descendants (t : SimpleTree) : List TreeNode :=
  t.head.nodes

/-- Modelled from the spec: `SimpleTree([[head]])` reconstructs a simplified
tree directly from a persisted head, bypassing re-parsing. -/
def SimpleTree.fromHead (h : TreeHead) : SimpleTree :=
  ⟨h⟩

/-- A `Terminal` record as returned by `_Sentence.terminals`: matched text,
lemma, terminal category, variants and token index. -/
structure Terminal where
  text : String
  lemma_ : String
  category : String
  variants : List String
  index : Nat
deriving DecidableEq

/-- `Greynir._dump_token`: a token is dumped as its `(kind, txt, val)`
triple, here represented by the token record itself. -/
def dump_token (t : Tok) : Tok :=
  t

/-- Modelled from the spec: `bintokenizer.load_token` is not under `src/`;
per the specification, the persisted kind/text/value triple reconstructs an
identical token ("Round trip must preserve: token identity
(kind/text/value)"). -/
def load_token (t : Tok) : Tok :=
  t

/-- The abstract environment of external engines consumed by the job layer,
polymorphic in the opaque parse-forest type `F`:
`go` is `Fast_Parser.go` (which may raise `ParseError` or return no forest),
`num_combinations` is `Fast_Parser.num_combinations`,
`go_with_score` is `Reducer.go_with_score`,
`tokens_are_foreign` is the language classifier with its fixed ratio,
`correct_spaces` is the tokenizer's spacing-correction collaborator, and
`from_deep_tree` is `SimpleTree.from_deep_tree`. -/
structure Env (F : Type) where
  go : List Tok → Option String → Except ParseError (Option F)
  num_combinations : F → Nat
  go_with_score : F → F × Int
  tokens_are_foreign : List Tok → Bool
  correct_spaces : String → String
  from_deep_tree : F → List Tok → SimpleTree

/-- The configuration of a `_Job`: the `parse` (immediate-parse) flag, the
grammar root override, whether a progress function is present, the
maximum-sentence-token threshold, and the owning `Greynir` instance's
`parse_foreign_sentences` option. -/
structure JobConfig where
  parse : Bool
  root : Option String
  progress : Bool
  max_sent_tokens : Nat
  parse_foreign_sentences : Bool
deriving DecidableEq

/-- The default maximum sentence length in tokens (`DEFAULT_MAX_SENT_TOKENS`). -/
def DEFAULT_MAX_SENT_TOKENS : Nat := 90

/-- The mutable counters of a `_Job`.  The float accumulator `_total_ambig`
is represented by the list `ambig` of `(combinations, length)` pairs of the
successfully parsed sentences, from which the real-valued accumulator is
computed by `JobStats.total_ambig` below; all other counters are exactly the
integer fields of the Python object.  The timing accumulators are omitted. -/
structure JobStats where
  cnt_sent : Nat
  num_sent : Nat
  num_parsed : Nat
  num_tokens : Nat
  num_combinations : Nat
  total_tokens : Nat
  ambig : List (Nat × Nat)
deriving DecidableEq

/-- The counters of a freshly constructed `_Job` (all zero). -/
def job_init_stats : JobStats :=
  { cnt_sent := 0, num_sent := 0, num_parsed := 0, num_tokens := 0,
    num_combinations := 0, total_tokens := 0, ambig := [] }

/-- One term of the ambiguity accumulator:
`ambig_factor * slen = num ** (1 / slen) * slen` from `_Job._add_sentence`. -/
noncomputable def ambigTerm (p : Nat × Nat) : ℝ :=
  (p.1 : ℝ) ^ ((1 : ℝ) / (p.2 : ℝ)) * (p.2 : ℝ)

/-- The value of the `_total_ambig` float accumulator of a job. -/
noncomputable def JobStats.total_ambig (st : JobStats) : ℝ :=
  (st.ambig.map ambigTerm).sum

/-- `_Job.ambiguity`: `_total_ambig / _total_tokens` when `_total_tokens > 0`,
else exactly `1.0`. -/
noncomputable def JobStats.ambiguity (st : JobStats) : ℝ :=
  if 0 < st.total_tokens then st.total_ambig / (st.total_tokens : ℝ) else 1

/-- `_Job._add_sentence`: increment the sentence and token counters, and on a
successful parse (`num > 0`) also the parsed/combination counters and the
ambiguity accumulators.  Returns the updated counters together with the
value passed to the progress function, if one is configured (the Python code
asserts `cnt_sent > 0` and `num_sent + 1 ≤ cnt_sent` at that point; both
hold on every run produced by `run_job` below, where `cnt_sent` is the
pre-counted number of sentences plus one). -/
def add_sentence (cfg : JobConfig) (st : JobStats) (s : List Tok) (num : Nat) :
    JobStats × Option ℚ :=
  let slen := s.length
  let st1 := { st with num_sent := st.num_sent + 1, num_tokens := st.num_tokens + slen }
  let st2 :=
    if 0 < num then
      { st1 with num_parsed := st1.num_parsed + 1,
                 num_combinations := st1.num_combinations + num,
                 ambig := st1.ambig ++ [(num, slen)],
                 total_tokens := st1.total_tokens + slen }
    else st1
  (st2, if cfg.progress then some (((st2.num_sent : ℚ) + 1) / (st2.cnt_sent : ℚ)) else none)

/-- The message of the length-exceeded `ParseError` raised by `_Job.parse`. -/
def lengthMsg (n : Nat) : String :=
  "Sentence is longer than " ++ toString n ++ " tokens"

/-- The observable outcome of one `_Job.parse` call: the returned triple or
the raised `ParseError`, the updated job counters, the number of grammar
engine invocations performed, and the progress value emitted (the `finally`
block always runs `_add_sentence`). -/
structure ParseOutcome (F : Type) where
  result : Except ParseError (Option F × Nat × Int)
  stats : JobStats
  parserCalls : Nat
  progressCall : Option ℚ

/-- The `try` body of `_Job.parse` after the sentence-length guard: the
foreign-sentence guard, the grammar engine invocation, the combination count
and the conditional reduction.  Returns the returned triple (or the raised
`ParseError`) together with the number of grammar engine invocations. -/
def jobParse_core_rest {F : Type} (env : Env F) (cfg : JobConfig) (tokens : List Tok) :
    Except ParseError (Option F × Nat × Int) × Nat :=
  if cfg.parse_foreign_sentences = false ∧ env.tokens_are_foreign tokens = true then
    (.error { msg := "Sentence is probably not in Icelandic", token_index := some 0 }, 0)
  else
    match env.go tokens cfg.root with
    | .error e => (.error e, 1)
    | .ok none => (.ok (none, 0, 0), 1)
    | .ok (some forest) =>
      let num := env.num_combinations forest
      if 1 < num then
        let rs := env.go_with_score forest
        (.ok (some rs.1, num, rs.2), 1)
      else
        (.ok (some forest, num, 0), 1)

/-- The `try` body of `_Job.parse`: the sentence-length guard
(`max_sent_tokens` of zero is falsy in Python and disables the check),
then the rest of the body. -/
def jobParse_core {F : Type} (env : Env F) (cfg : JobConfig) (tokens : List Tok) :
    Except ParseError (Option F × Nat × Int) × Nat :=
  if cfg.max_sent_tokens ≠ 0 ∧ cfg.max_sent_tokens < tokens.length then
    (.error { msg := lengthMsg cfg.max_sent_tokens,
              token_index := some cfg.max_sent_tokens }, 0)
  else jobParse_core_rest env cfg tokens

/-- The value of the local `num` variable of `_Job.parse` when the `finally`
block runs: the returned combination count, or zero when a `ParseError` was
raised (the error paths all precede the assignment of `num`). -/
def resultNum {F : Type} : Except ParseError (Option F × Nat × Int) → Nat
  | .ok (_, n, _) => n
  | .error _ => 0

/-- `_Job.parse`: run the `try` body, then (as the `finally` block does,
regardless of the outcome) run `_add_sentence` on the job counters, emitting
a progress value if a progress function is configured. -/
def jobParse {F : Type} (env : Env F) (cfg : JobConfig) (st : JobStats)
    (tokens : List Tok) : ParseOutcome F :=
  let c := jobParse_core env cfg tokens
  let r := add_sentence cfg st tokens (resultNum c.1)
  { result := c.1, stats := r.1, parserCalls := c.2, progressCall := r.2 }

/-- The attribute dictionary of a `_Sentence` object.  Each field is
`Option`-wrapped: `none` means the attribute is absent from `__dict__`
(reading it raises `AttributeError`); the inner value is the Python
attribute value, itself optional where the Python value may be `None`.
`_job` holds only the presence of the back-reference (the job's data is
passed explicitly); `lenKey` is the stray `"len"` key that
`_Sentence.load` writes instead of `_len`. -/
structure SentenceDict (F : Type) where
  _job : Option (Option Unit)
  _s : Option (List Tok)
  _len : Option Nat
  lenKey : Option Nat
  _err_index : Option (Option Nat)
  _error : Option (Option ParseError)
  _tree : Option (Option F)
  _simplified_tree : Option (Option SimpleTree)
  _num : Option (Option Nat)
  _score : Option (Option Int)
  _terminals : Option (Option (List Terminal))
deriving DecidableEq

/-- The attribute assignments performed by `_Sentence.__init__` (before the
assertion and the optional immediate parse). -/
def sentence_fields {F : Type} (s : List Tok) : SentenceDict F :=
  { _job := some (some ()), _s := some s, _len := some s.length,
    lenKey := none,
    _err_index := some none, _error := some none,
    _tree := some none, _simplified_tree := some none,
    _num := some none, _score := some none, _terminals := some none }

/-- The attribute updates performed by `_Sentence.parse` when `_Job.parse`
raised a `ParseError` with error index `ei`. -/
def errDict {F : Type} (sd : SentenceDict F) (e : ParseError) (ei : Nat) : SentenceDict F :=
  { sd with _err_index := some (some ei), _error := some (some e),
            _tree := some none, _simplified_tree := some none,
            _num := some (some 0), _score := some (some 0) }

/-- `_Sentence.parse`.  If `_num` is already set the cached verdict is
returned without touching the job.  Otherwise `_Job.parse` is invoked on the
sentence tokens; on success the deep tree, the simplified tree, the
combination count and the score are stored, and on a `ParseError` the error
and its token index (defaulting to the last token) are stored.  The result
carries the returned boolean, the updated sentence dictionary, the updated
job counters, the number of grammar engine invocations and the emitted
progress value. -/
def sentence_parse {F : Type} (env : Env F) (cfg : JobConfig) (sd : SentenceDict F)
    (st : JobStats) : Except PyErr (Bool × SentenceDict F × JobStats × Nat × Option ℚ) :=
  match sd._num with
  | none => .error .attributeError
  | some (some n) => .ok (decide (0 < n), sd, st, 0, none)
  | some none =>
    match sd._job with
    | none => .error .attributeError
    | some none => .error .attributeError
    | some (some _) =>
      match sd._s with
      | none => .error .attributeError
      | some s =>
        let out := jobParse env cfg st s
        match out.result with
        | .ok (tree, num, score) =>
          .ok (decide (0 < num),
            { sd with _tree := some tree,
                      _simplified_tree := some (tree.map fun t => env.from_deep_tree t s),
                      _num := some (some num), _score := some (some score) },
            out.stats, out.parserCalls, out.progressCall)
        | .error e =>
          match e.token_index, sd._len with
          | none, none => .error .attributeError
          | none, some l =>
            .ok (false, errDict sd e (l - 1), out.stats, out.parserCalls, out.progressCall)
          | some i, _ =>
            .ok (false, errDict sd e i, out.stats, out.parserCalls, out.progressCall)

/-- `_Sentence.__init__`: assign the fields, assert that the token list is
non-empty, and, when the job is configured for immediate parsing, parse the
sentence right away. -/
def sentence_init {F : Type} (env : Env F) (cfg : JobConfig) (st : JobStats)
    (s : List Tok) : Except PyErr (SentenceDict F × JobStats × Nat × Option ℚ) :=
  let sd : SentenceDict F := sentence_fields s
  if 0 < s.length then
    if cfg.parse then
      match sentence_parse env cfg sd st with
      | .error e => .error e
      | .ok (_, sd1, st1, c, q) => .ok (sd1, st1, c, q)
    else .ok (sd, st, 0, none)
  else .error .assertionError

/-- `_Sentence.__len__`: reads the `_len` attribute. -/
def sentence_len {F : Type} (sd : SentenceDict F) : Except PyErr Nat :=
  getAttr sd._len

/-- `_Sentence.combinations`: reads the `_num` attribute. -/
def sentence_combinations {F : Type} (sd : SentenceDict F) : Except PyErr (Option Nat) :=
  getAttr sd._num

/-- `_Sentence.tree`: the simplified parse tree, or `none` if the sentence
has not been (successfully) parsed. -/
def sentence_tree {F : Type} (sd : SentenceDict F) : Except PyErr (Option SimpleTree) :=
  getAttr sd._simplified_tree

/-- `_Sentence.text`: the token surface forms of the non-empty tokens,
joined with single spaces (`" ".join(t.txt for t in self._s if t.txt)`;
the memoizing write of the `cached_property` stores exactly this value and
is therefore value-transparent). -/
def sentence_text {F : Type} (sd : SentenceDict F) : Except PyErr String :=
  match sd._s with
  | none => .error .attributeError
  | some s => .ok (String.intercalate " " ((s.filter fun t => t.txt ≠ "").map fun t => t.txt))

/-- `_Sentence.terminal_nodes`: the terminal descendants of the simplified
tree, in left-to-right order (empty when there is no tree). -/
def sentence_terminal_nodes {F : Type} (sd : SentenceDict F) : Except PyErr (List TreeNode) :=
  match sentence_tree sd with
  | .error e => .error e
  | .ok none => .ok []
  | .ok (some t) => .ok (t.descendants.filter fun d => d.is_terminal)

/-- `_Sentence.terminals`: `none` until a successful parse; otherwise the
`Terminal` records generated from the terminal nodes (the memoizing write of
the `_terminals` cache stores exactly the computed list and is therefore
value-transparent; a populated cache is returned as is). -/
def sentence_terminals {F : Type} (sd : SentenceDict F) : Except PyErr (Option (List Terminal)) :=
  match sentence_tree sd with
  | .error e => .error e
  | .ok none => .ok none
  | .ok (some _) =>
    match sd._terminals with
    | none => .error .attributeError
    | some (some cached) => .ok (some cached)
    | some none =>
      match sentence_terminal_nodes sd with
      | .error e => .error e
      | .ok nodes =>
        .ok (some (nodes.map fun d => ⟨d.text, d.lemma_, d.tcat, d.all_variants, d.index⟩))

/-- `_Sentence.lemmas`: the lemmas of the terminals, or `none` if unparsed. -/
def sentence_lemmas {F : Type} (sd : SentenceDict F) : Except PyErr (Option (List String)) :=
  match sentence_terminals sd with
  | .error e => .error e
  | .ok none => .ok none
  | .ok (some ts) => .ok (some (ts.map fun t => t.lemma_))

/-- `_Sentence.categories`: the BIN categories (`cat`) of the terminal
nodes, or `none` if unparsed. -/
def sentence_categories {F : Type} (sd : SentenceDict F) : Except PyErr (Option (List String)) :=
  match sentence_tree sd with
  | .error e => .error e
  | .ok none => .ok none
  | .ok (some _) =>
    match sentence_terminal_nodes sd with
    | .error e => .error e
    | .ok nodes => .ok (some (nodes.map fun d => d.cat))

/-- `_Sentence.tidy_text`: if terminals are available, their texts joined
with spaces, else the plain `text`; in both cases the result is passed
through the spacing-correction collaborator `correct_spaces`. -/
def sentence_tidy_text {F : Type} (env : Env F) (sd : SentenceDict F) : Except PyErr String :=
  match sentence_terminals sd with
  | .error e => .error e
  | .ok none =>
    match sentence_text sd with
    | .error e => .error e
    | .ok txt => .ok (env.correct_spaces txt)
  | .ok (some ts) =>
    .ok (env.correct_spaces (String.intercalate " " (ts.map fun t => t.text)))

/-- The structural record produced by `_Sentence.dump`: the dumped token
triples and the serialized simplified-tree head (or `none`). -/
structure DumpRec where
  tokens : List Tok
  tree : Option TreeHead
deriving DecidableEq

/-- `_Sentence.dump`: dump the tokens and the simplified tree's head. -/
def sentence_dump {F : Type} (sd : SentenceDict F) : Except PyErr DumpRec :=
  match sd._s with
  | none => .error .attributeError
  | some s =>
    match sentence_tree sd with
    | .error e => .error e
    | .ok t => .ok { tokens := s.map dump_token, tree := t.map fun tr => tr.head }

/-- `_Sentence.load`: build an instance by direct `__dict__` assignment.
Note the keys actually written: the token count goes under `"len"` (not
`"_len"`), and no `"_num"` and no `"_tree"` keys are written at all. -/
def sentence_load {F : Type} (tokens : List Tok) (tree : Option TreeHead) : SentenceDict F :=
  { _s := some (tokens.map load_token),
    lenKey := some tokens.length,
    _simplified_tree := some (tree.map SimpleTree.fromHead),
    _terminals := some none,
    _job := some none,
    _err_index := some none,
    _error := some none,
    _score := some none,
    _len := none,
    _tree := none,
    _num := none }

/-- `_Job_NP.__init__` root selection: `"Nl"` by default, `"Nl_et"` for a
singular restriction, `"Nl_ft"` for a plural restriction, `ValueError`
otherwise.  Note the Python truthiness test `if force_number:`: the empty
string is falsy and leaves the default root in place. -/
def job_np_root (force_number : Option String) : Except PyErr String :=
  match force_number with
  | none => .ok "Nl"
  | some fn =>
    if fn = "" then .ok "Nl"
    else if fn = "et" ∨ fn = "singular" then .ok "Nl_et"
    else if fn = "ft" ∨ fn = "plural" then .ok "Nl_ft"
    else .error .valueError

/-- `_Job_NP.__init__`: select the noun-phrase root and construct the job
configuration with immediate parsing enabled and default settings otherwise
(`pfs` is the owning instance's `parse_foreign_sentences` option). -/
def job_np_init (pfs : Bool) (force_number : Option String) : Except PyErr JobConfig :=
  match job_np_root force_number with
  | .error e => .error e
  | .ok root =>
    .ok { parse := true, root := some root, progress := false,
          max_sent_tokens := DEFAULT_MAX_SENT_TOKENS, parse_foreign_sentences := pfs }

/-- The sequence of sentences processed by a job: one `_Job.parse` call per
sentence (this is the effect of iterating a job constructed with
`parse=True`, as `Greynir.parse` does), threading the job counters and
collecting the emitted progress values. -/
def run_sentences {F : Type} (env : Env F) (cfg : JobConfig) :
    JobStats → List (List Tok) → JobStats × List ℚ
  | st, [] => (st, [])
  | st, s :: rest =>
    let out := jobParse env cfg st s
    let r := run_sentences env cfg out.stats rest
    (r.1, out.progressCall.toList ++ r.2)

/-- `_Job.paragraphs` / `_Job.sentences` driving a full job over a
pre-segmented token stream (`pgs` is the output of the tokenizer's
`paragraphs` collaborator: a list of paragraphs, each a list of sentence
token lists).  With a progress function configured, the segmentation is
materialized up front, `cnt_sent` is set to the total sentence count plus
one, and an initial progress call of `1 / cnt_sent` is emitted before any
sentence is processed; without one, the stream is processed directly. -/
def run_job {F : Type} (env : Env F) (cfg : JobConfig) (pgs : List (List (List Tok))) :
    JobStats × List ℚ :=
  if cfg.progress then
    let sents := pgs.flatten
    let cnt := sents.length + 1
    let st0 := { job_init_stats with cnt_sent := cnt }
    let r := run_sentences env cfg st0 sents
    (r.1, ((1 : ℚ) / (cnt : ℚ)) :: r.2)
  else
    let r := run_sentences env cfg job_init_stats pgs.flatten
    (r.1, r.2)

/-- The invariant linking a job's counters, maintained by `_add_sentence`:
`_total_tokens` is the summed length of the successfully parsed sentences,
`_num_parsed` counts them, and every recorded sentence had at least one
combination and at least one token. -/
def JobStats.Inv (st : JobStats) : Prop :=
  st.total_tokens = (st.ambig.map Prod.snd).sum ∧
  st.num_parsed = st.ambig.length ∧
  ∀ p ∈ st.ambig, 1 ≤ p.1 ∧ 1 ≤ p.2

instance (st : JobStats) : Decidable st.Inv := by
  unfold JobStats.Inv
  infer_instance

/-- Remove a space occurring before a period, character by character. -/
def fixDots : List Char → List Char
  | [] => []
  | ' ' :: '.' :: rest => '.' :: fixDots rest
  | c :: rest => c :: fixDots rest

/-- Modelled from the spec: a concrete instance of the spacing-correction
collaborator (`tokenizer.correct_spaces`, not under `src/`), which per the
specification "fixes punctuation spacing" — in particular it removes the
space that plain `" ".join` places before a period. -/
def demoCorrectSpaces (s : String) : String :=
  ⟨fixDots s.data⟩

/-- A word token used in concrete instantiations. -/
def tokA : Tok :=
  { kind := 6, txt := "a", val := 0 }

/-- A period token used in concrete instantiations. -/
def tokDot : Tok :=
  { kind := 1, txt := ".", val := 0 }

/-- A trivial engine environment over the unit forest type: the grammar
engine finds no forest, no sentence is classified foreign, and spacing
correction is the identity. -/
def envU : Env Unit :=
  { go := fun _ _ => .ok none, num_combinations := fun _ => 0,
    go_with_score := fun u => (u, 0), tokens_are_foreign := fun _ => false,
    correct_spaces := fun s => s, from_deep_tree := fun _ _ => ⟨⟨[]⟩⟩ }

/-- An environment whose language classifier marks every sentence foreign. -/
def envF : Env Unit :=
  { envU with tokens_are_foreign := fun _ => true }

/-- An environment whose spacing correction is `demoCorrectSpaces`. -/
def envC8 : Env Unit :=
  { envU with correct_spaces := demoCorrectSpaces }

/-- A job configuration with lazy parsing, no progress function, no length
limit and foreign parsing disabled. -/
def cfgLazy : JobConfig :=
  { parse := false, root := none, progress := false, max_sent_tokens := 0,
    parse_foreign_sentences := false }

/-- A job configuration with immediate parsing and a progress function. -/
def cfgProg : JobConfig :=
  { parse := true, root := none, progress := true, max_sent_tokens := 0,
    parse_foreign_sentences := true }

/-- A job configuration with a maximum sentence length of two tokens. -/
def cfgMax2 : JobConfig :=
  { parse := false, root := none, progress := false, max_sent_tokens := 2,
    parse_foreign_sentences := false }

/-- Job counters of a one-sentence job whose only sentence (one token long)
parsed with exactly one combination. -/
def cstC1 : JobStats :=
  (add_sentence cfgLazy job_init_stats [tokA] 1).1

/-- An unparsed two-token sentence "a ." (fresh from `_Sentence.__init__`). -/
def sdC8 : SentenceDict Unit :=
  sentence_fields [tokA, tokDot]

/-- A terminal tree node used in concrete instantiations. -/
def nodeW : TreeNode :=
  { is_terminal := true, text := "a", lemma_ := "a", tcat := "no", cat := "kk",
    lemma_cat := "no", all_variants := ["nf"], index := 0, ifd_tags := ["nken"] }

/-- A one-terminal simplified tree used in concrete instantiations. -/
def treeW : SimpleTree :=
  ⟨⟨[nodeW]⟩⟩

/-- A successfully parsed one-token sentence (fields as `_Sentence.parse`
leaves them, with the simplified tree `treeW`). -/
def sdC4 : SentenceDict Unit :=
  { sentence_fields [tokA] with _simplified_tree := some (some treeW) }

/-- A fresh unparsed one-token sentence over the unit forest type. -/
def sdW0 : SentenceDict Unit :=
  sentence_fields [tokA]

/-- `sdW0` after a first parse under `envU` (the engine finds no forest, so
the sentence ends in the failed state with zero combinations). -/
def sdW1 : SentenceDict Unit :=
  { sdW0 with _tree := some none, _simplified_tree := some none,
              _num := some (some 0), _score := some (some 0) }

/-- The job counters after the first parse of `sdW0` under `envU`. -/
def stW1 : JobStats :=
  (add_sentence cfgLazy job_init_stats [tokA] 0).1

/-- A pre-segmented token stream of two paragraphs and three sentences. -/
def pgsW : List (List (List Tok)) :=
  [[[tokA]], [[tokA], [tokA]]]

/-! ## Helper lemmas -/

theorem add_sentence_num_sent (cfg : JobConfig) (st : JobStats) (s : List Tok) (num : Nat) :
    (add_sentence cfg st s num).1.num_sent = st.num_sent + 1 := by
  unfold add_sentence
  dsimp only
  split <;> rfl

theorem add_sentence_cnt_sent (cfg : JobConfig) (st : JobStats) (s : List Tok) (num : Nat) :
    (add_sentence cfg st s num).1.cnt_sent = st.cnt_sent := by
  unfold add_sentence
  dsimp only
  split <;> rfl

theorem add_sentence_progress (cfg : JobConfig) (st : JobStats) (s : List Tok) (num : Nat) :
    (add_sentence cfg st s num).2 =
      if cfg.progress then some (((st.num_sent : ℚ) + 2) / (st.cnt_sent : ℚ)) else none := by
  unfold add_sentence
  dsimp only
  by_cases hp : cfg.progress
  · rw [if_pos hp, if_pos hp]
    by_cases hn : 0 < num
    · rw [if_pos hn]
      dsimp only
      congr 1
      push_cast
      ring
    · rw [if_neg hn]
      dsimp only
      congr 1
      push_cast
      ring
  · rw [if_neg hp, if_neg hp]

theorem jobParse_stats_shape {F : Type} (env : Env F) (cfg : JobConfig) (st : JobStats)
    (s : List Tok) :
    (jobParse env cfg st s).stats.num_sent = st.num_sent + 1 ∧
    (jobParse env cfg st s).stats.cnt_sent = st.cnt_sent ∧
    (jobParse env cfg st s).progressCall =
      (if cfg.progress then some (((st.num_sent : ℚ) + 2) / (st.cnt_sent : ℚ)) else none) :=
  ⟨add_sentence_num_sent cfg st s (resultNum (jobParse_core env cfg s).1),
   add_sentence_cnt_sent cfg st s (resultNum (jobParse_core env cfg s).1),
   add_sentence_progress cfg st s (resultNum (jobParse_core env cfg s).1)⟩

/-! ## Claims -/

/-- C10: `_Sentence.load` builds an object whose dictionary stores the token
count under the key `"len"` instead of the `"_len"` attribute that
`__len__` reads, and stores no `"_num"` attribute at all; consequently
`len()`, the `combinations` property and `parse()` all raise
`AttributeError` on a loaded sentence. -/
theorem load_missing_fields_spec {F : Type} (env : Env F) (cfg : JobConfig) (st : JobStats)
    (tokens : List Tok) (tree : Option TreeHead) :
    (sentence_load (F := F) tokens tree).lenKey = some tokens.length ∧
    (sentence_load (F := F) tokens tree)._len = none ∧
    (sentence_load (F := F) tokens tree)._num = none ∧
    sentence_len (sentence_load (F := F) tokens tree) = .error .attributeError ∧
    sentence_combinations (sentence_load (F := F) tokens tree) = .error .attributeError ∧
    sentence_parse env cfg (sentence_load tokens tree) st = .error .attributeError :=
  ⟨rfl, rfl, rfl, rfl, rfl, rfl⟩

/-- C9 counterexample: contrary to the claim that the non-emptiness of the
token sequence "is not a runtime-checked condition" and that "Sentence
construction itself performs no emptiness check", `_Sentence.__init__`
contains `assert self._len > 0`, so constructing a sentence from an empty
token sequence fails with an `AssertionError` at construction time. -/
theorem sentence_init_empty_asserts :
    sentence_init envU cfgLazy job_init_stats ([] : List Tok) = .error .assertionError :=
  rfl

/-- C9 (amended): the `length > 0` invariant of a token sequence is relied
upon from upstream sanitization, but `_Sentence.__init__` additionally
guards it with an assertion: construction from an empty token sequence
fails the assertion, while construction from a non-empty sequence succeeds
(shown here for a lazy-parse job, where no engine is involved). -/
theorem sentence_init_assert_spec {F : Type} (env : Env F) (cfg : JobConfig) (st : JobStats)
    (s : List Tok) :
    (s = [] → sentence_init env cfg st s = .error .assertionError) ∧
    (s ≠ [] → cfg.parse = false →
      sentence_init env cfg st s = .ok (sentence_fields s, st, 0, none)) := by
  constructor
  · rintro rfl
    rfl
  · intro hs hp
    unfold sentence_init
    rw [if_pos (List.length_pos.mpr hs), hp]
    simp

/-- C9 witness: a concrete non-empty construction succeeds. -/
theorem sentence_init_assert_spec_witness :
    sentence_init envU cfgLazy job_init_stats [tokA] =
      .ok (sentence_fields [tokA], job_init_stats, 0, none) :=
  (sentence_init_assert_spec envU cfgLazy job_init_stats [tokA]).2 (by simp) rfl

/-- C7 counterexample: the empty string is an unrecognized restriction value
(it is none of `"et"`, `"singular"`, `"ft"`, `"plural"`), yet constructing a
noun-phrase job with it does not raise a configuration error: the Python
truthiness test `if force_number:` treats it as absent and the root stays
`"Nl"`. -/
theorem np_empty_force_number_no_error :
    job_np_init false (some "") =
      .ok { parse := true, root := some "Nl", progress := false,
            max_sent_tokens := DEFAULT_MAX_SENT_TOKENS, parse_foreign_sentences := false } ∧
    ("" : String) ∉ (["et", "singular", "ft", "plural"] : List String) := by
  exact ⟨rfl, by decide⟩

/-- C7 (amended): a noun-phrase job always eager-parses
(`parse := true`); no restriction — or the falsy empty string — selects
grammar root `"Nl"`, a singular restriction (`"et"`/`"singular"`) selects
`"Nl_et"`, a plural restriction (`"ft"`/`"plural"`) selects `"Nl_ft"`, and
any other non-empty restriction value raises `ValueError` at construction,
before any parsing occurs. -/
theorem np_root_selection (pfs : Bool) :
    (∀ fn : Option String, fn = none ∨ fn = some "" →
      job_np_init pfs fn =
        .ok { parse := true, root := some "Nl", progress := false,
              max_sent_tokens := DEFAULT_MAX_SENT_TOKENS, parse_foreign_sentences := pfs }) ∧
    (∀ fn : String, fn = "et" ∨ fn = "singular" →
      job_np_init pfs (some fn) =
        .ok { parse := true, root := some "Nl_et", progress := false,
              max_sent_tokens := DEFAULT_MAX_SENT_TOKENS, parse_foreign_sentences := pfs }) ∧
    (∀ fn : String, fn = "ft" ∨ fn = "plural" →
      job_np_init pfs (some fn) =
        .ok { parse := true, root := some "Nl_ft", progress := false,
              max_sent_tokens := DEFAULT_MAX_SENT_TOKENS, parse_foreign_sentences := pfs }) ∧
    (∀ fn : String, fn ≠ "" → fn ≠ "et" → fn ≠ "singular" → fn ≠ "ft" → fn ≠ "plural" →
      job_np_init pfs (some fn) = .error .valueError) := by
  refine ⟨?_, ?_, ?_, ?_⟩
  · rintro fn (rfl | rfl) <;> rfl
  · rintro fn (rfl | rfl) <;> rfl
  · rintro fn (rfl | rfl) <;> rfl
  · intro fn h0 h1 h2 h3 h4
    simp only [job_np_init, job_np_root]
    rw [if_neg h0, if_neg (by simp [h1, h2]), if_neg (by simp [h3, h4])]

/-- C7 witness: a concrete singular restriction selects root `"Nl_et"`. -/
theorem np_root_selection_witness :
    job_np_init false (some "singular") =
      .ok { parse := true, root := some "Nl_et", progress := false,
            max_sent_tokens := DEFAULT_MAX_SENT_TOKENS, parse_foreign_sentences := false } :=
  (np_root_selection false).2.1 "singular" (Or.inr rfl)

/-- C3: when the maximum-sentence-token threshold is nonzero and a token
sequence is longer than the threshold, `_Job.parse` raises a
length-exceeded `ParseError` whose error position is the threshold value
itself, never invokes the grammar engine, and still counts the sentence as
seen but not parsed; a threshold of zero is falsy and disables the length
check entirely (the call proceeds exactly as the guard-free body). -/
theorem length_threshold_spec {F : Type} (env : Env F) (cfg : JobConfig) (st : JobStats)
    (tokens : List Tok) :
    (cfg.max_sent_tokens ≠ 0 → cfg.max_sent_tokens < tokens.length →
      (jobParse env cfg st tokens).result =
        .error { msg := lengthMsg cfg.max_sent_tokens,
                 token_index := some cfg.max_sent_tokens } ∧
      (jobParse env cfg st tokens).parserCalls = 0 ∧
      (jobParse env cfg st tokens).stats.num_sent = st.num_sent + 1 ∧
      (jobParse env cfg st tokens).stats.num_parsed = st.num_parsed) ∧
    (cfg.max_sent_tokens = 0 →
      jobParse_core env cfg tokens = jobParse_core_rest env cfg tokens) := by
  constructor
  · intro h1 h2
    have hcore : jobParse_core env cfg tokens =
        (.error { msg := lengthMsg cfg.max_sent_tokens,
                  token_index := some cfg.max_sent_tokens }, 0) := by
      unfold jobParse_core
      rw [if_pos ⟨h1, h2⟩]
    refine ⟨?_, ?_, ?_, ?_⟩ <;>
      simp [jobParse, hcore, resultNum, add_sentence]
  · intro h0
    unfold jobParse_core
    rw [if_neg]
    simp [h0]

/-- C3 witness: a three-token sentence against a threshold of two. -/
theorem length_threshold_spec_witness :
    (jobParse envU cfgMax2 job_init_stats [tokA, tokA, tokA]).result =
      .error { msg := lengthMsg 2, token_index := some 2 } ∧
    (jobParse envU cfgMax2 job_init_stats [tokA, tokA, tokA]).parserCalls = 0 ∧
    jobParse_core envU cfgLazy [tokA, tokA, tokA] =
      jobParse_core_rest envU cfgLazy [tokA, tokA, tokA] := by
  have h := length_threshold_spec envU cfgMax2 job_init_stats [tokA, tokA, tokA]
  have h0 := length_threshold_spec envU cfgLazy job_init_stats [tokA, tokA, tokA]
  exact ⟨(h.1 (by decide) (by decide)).1, (h.1 (by decide) (by decide)).2.1, h0.2 rfl⟩

/-- C5: `_Sentence.parse` is idempotent.  If a first parse of a fresh
sentence (`_num` still unset) returned the boolean `b`, a second call
returns the same `b`, leaves the sentence and the job counters untouched,
performs no grammar engine invocation, and emits no progress call. -/
theorem parse_idempotent {F : Type} (env : Env F) (cfg : JobConfig)
    (sd sd' : SentenceDict F) (st st' : JobStats) (b : Bool) (c : Nat) (q : Option ℚ)
    (h0 : sd._num = some none)
    (hres : sentence_parse env cfg sd st = .ok (b, sd', st', c, q)) :
    sentence_parse env cfg sd' st' = .ok (b, sd', st', 0, none) := by
  unfold sentence_parse at hres ⊢
  rw [h0] at hres
  cases hj : sd._job with
  | none =>
    rw [hj] at hres
    simp at hres
  | some jo =>
    cases jo with
    | none =>
      rw [hj] at hres
      simp at hres
    | some u =>
      rw [hj] at hres
      cases hs : sd._s with
      | none =>
        rw [hs] at hres
        simp at hres
      | some s =>
        rw [hs] at hres
        dsimp only at hres
        cases hout : (jobParse env cfg st s).result with
        | ok trip =>
          obtain ⟨tree, num, score⟩ := trip
          rw [hout] at hres
          dsimp only at hres
          simp only [Except.ok.injEq, Prod.mk.injEq] at hres
          obtain ⟨hb, hsd, hst, hc, hq⟩ := hres
          subst hb hsd hst
          rfl
        | error e =>
          rw [hout] at hres
          dsimp only at hres
          cases hti : e.token_index with
          | none =>
            cases hl : sd._len with
            | none =>
              rw [hti, hl] at hres
              simp at hres
            | some l =>
              rw [hti, hl] at hres
              dsimp only at hres
              simp only [Except.ok.injEq, Prod.mk.injEq] at hres
              obtain ⟨hb, hsd, hst, hc, hq⟩ := hres
              subst hb hsd hst
              rfl
          | some i =>
            rw [hti] at hres
            dsimp only at hres
            simp only [Except.ok.injEq, Prod.mk.injEq] at hres
            obtain ⟨hb, hsd, hst, hc, hq⟩ := hres
            subst hb hsd hst
            rfl

/-- C5 witness: after a first parse of a fresh one-token sentence under the
trivial engine (which finds no forest), the second call returns the same
verdict with no engine invocation and no state change. -/
theorem parse_idempotent_witness :
    sentence_parse envU cfgLazy sdW1 stW1 = .ok (false, sdW1, stW1, 0, none) :=
  parse_idempotent envU cfgLazy sdW0 sdW1 job_init_stats stW1 false 1 none rfl rfl

/-- C6: a sentence classified foreign while foreign parsing is disabled (and
not caught by the length guard) fails with `parse() = False` and error
index `0`, the grammar engine is not invoked, and the job counts the
sentence as seen but not parsed. -/
theorem foreign_sentence_filtering {F : Type} (env : Env F) (cfg : JobConfig)
    (st : JobStats) (s : List Tok)
    (hlen : cfg.max_sent_tokens = 0 ∨ s.length ≤ cfg.max_sent_tokens)
    (hf : env.tokens_are_foreign s = true)
    (hp : cfg.parse_foreign_sentences = false) :
    sentence_parse env cfg (sentence_fields s) st =
      .ok (false,
        errDict (sentence_fields s)
          { msg := "Sentence is probably not in Icelandic", token_index := some 0 } 0,
        (add_sentence cfg st s 0).1, 0, (add_sentence cfg st s 0).2) ∧
    (errDict (sentence_fields (F := F) s)
      { msg := "Sentence is probably not in Icelandic", token_index := some 0 } 0)._err_index =
        some (some 0) ∧
    (add_sentence cfg st s 0).1.num_sent = st.num_sent + 1 ∧
    (add_sentence cfg st s 0).1.num_parsed = st.num_parsed := by
  have hguard : ¬(cfg.max_sent_tokens ≠ 0 ∧ cfg.max_sent_tokens < s.length) := by
    rcases hlen with h | h
    · simp [h]
    · exact fun hc => absurd hc.2 (not_lt.mpr h)
  have hcore : jobParse_core env cfg s =
      (.error { msg := "Sentence is probably not in Icelandic", token_index := some 0 }, 0) := by
    unfold jobParse_core jobParse_core_rest
    rw [if_neg hguard, if_pos ⟨hp, hf⟩]
  refine ⟨?_, rfl, add_sentence_num_sent cfg st s 0, ?_⟩
  · unfold sentence_parse sentence_fields jobParse
    dsimp only
    rw [hcore]
    rfl
  · simp [add_sentence]

/-- C6 witness: a concrete one-token sentence under a classifier that marks
everything foreign. -/
theorem foreign_sentence_filtering_witness :
    sentence_parse envF cfgLazy (sentence_fields [tokA]) job_init_stats =
      .ok (false,
        errDict (sentence_fields [tokA])
          { msg := "Sentence is probably not in Icelandic", token_index := some 0 } 0,
        (add_sentence cfgLazy job_init_stats [tokA] 0).1, 0,
        (add_sentence cfgLazy job_init_stats [tokA] 0).2) ∧
    (add_sentence cfgLazy job_init_stats [tokA] 0).1.num_sent = 1 ∧
    (add_sentence cfgLazy job_init_stats [tokA] 0).1.num_parsed = 0 := by
  have h := foreign_sentence_filtering envF cfgLazy job_init_stats [tokA]
    (Or.inl rfl) rfl rfl
  exact ⟨h.1, h.2.2.1, h.2.2.2⟩

/-- C8 counterexample: for an unparsed sentence, `tidy_text` is not the
plain space-joined token text: the fallback string is still passed through
the spacing-correction collaborator.  With a corrector that (per the spec)
fixes the spacing before a period, the unparsed sentence "a ." yields
`tidy_text = "a."` while `text = "a ."`. -/
theorem tidy_text_fallback_not_plain_text :
    sentence_tidy_text envC8 sdC8 = .ok "a." ∧
    sentence_text sdC8 = .ok "a ." ∧
    sentence_tidy_text envC8 sdC8 ≠ sentence_text sdC8 := by
  refine ⟨rfl, rfl, ?_⟩
  intro h
  rw [show sentence_tidy_text envC8 sdC8 = .ok "a." from rfl,
      show sentence_text sdC8 = .ok "a ." from rfl] at h
  simp at h

/-- C8 (amended): if the sentence has been parsed successfully, `tidy_text`
is the terminals' text joined with spaces and passed through the
spacing-correction collaborator; otherwise it falls back to `text` — also
passed through the spacing-correction collaborator. -/
theorem tidy_text_spec {F : Type} (env : Env F) (sd : SentenceDict F) (txt : String)
    (htxt : sentence_text sd = .ok txt) :
    (sd._simplified_tree = some none →
      sentence_tidy_text env sd = .ok (env.correct_spaces txt)) ∧
    (∀ ts, sentence_terminals sd = .ok (some ts) →
      sentence_tidy_text env sd =
        .ok (env.correct_spaces (String.intercalate " " (ts.map fun t => t.text)))) := by
  constructor
  · intro ht
    unfold sentence_tidy_text sentence_terminals sentence_tree getAttr
    rw [ht]
    dsimp only
    rw [htxt]
  · intro ts hts
    unfold sentence_tidy_text
    rw [hts]

/-- C8 witness: the unparsed branch at the concrete sentence "a .". -/
theorem tidy_text_spec_witness :
    sentence_tidy_text envC8 sdC8 = .ok (envC8.correct_spaces "a .") :=
  (tidy_text_spec envC8 sdC8 "a ." rfl).1 rfl

/-- C4: dumping a successfully parsed sentence (tokens present, a simplified
tree present, terminals not yet memoized) and loading the dump yields an
object with the same `text`, `terminals`, `lemmas` and `categories`. -/
theorem dump_load_roundtrip {F : Type} (sd : SentenceDict F) (s : List Tok) (t : SimpleTree)
    (hs : sd._s = some s) (ht : sd._simplified_tree = some (some t))
    (hc : sd._terminals = some none) :
    sentence_dump sd = .ok { tokens := s.map dump_token, tree := some t.head } ∧
    sentence_text (sentence_load (F := F) (s.map dump_token) (some t.head)) =
      sentence_text sd ∧
    sentence_terminals (sentence_load (F := F) (s.map dump_token) (some t.head)) =
      sentence_terminals sd ∧
    sentence_lemmas (sentence_load (F := F) (s.map dump_token) (some t.head)) =
      sentence_lemmas sd ∧
    sentence_categories (sentence_load (F := F) (s.map dump_token) (some t.head)) =
      sentence_categories sd := by
  have hmap : ∀ l : List Tok, (l.map dump_token).map load_token = l := by
    intro l
    induction l with
    | nil => rfl
    | cons a l ih => simpa [dump_token, load_token] using ih
  have hload_s : (sentence_load (F := F) (s.map dump_token) (some t.head))._s = some s := by
    show some ((s.map dump_token).map load_token) = some s
    rw [hmap]
  have hload_t :
      (sentence_load (F := F) (s.map dump_token) (some t.head))._simplified_tree =
        some (some t) := rfl
  have hload_c :
      (sentence_load (F := F) (s.map dump_token) (some t.head))._terminals = some none := rfl
  refine ⟨?_, ?_, ?_, ?_, ?_⟩
  · unfold sentence_dump sentence_tree getAttr
    rw [hs, ht]
    rfl
  · unfold sentence_text
    rw [hs, hload_s]
  · unfold sentence_terminals sentence_terminal_nodes sentence_tree getAttr
    rw [ht, hload_t, hc, hload_c]
  · unfold sentence_lemmas sentence_terminals sentence_terminal_nodes sentence_tree getAttr
    rw [ht, hload_t, hc, hload_c]
  · unfold sentence_categories sentence_terminal_nodes sentence_tree getAttr
    rw [ht, hload_t]

/-- C4 witness: the round trip at a concrete parsed one-token sentence with
a one-terminal tree. -/
theorem dump_load_roundtrip_witness :
    sentence_dump sdC4 = .ok { tokens := [tokA].map dump_token, tree := some treeW.head } ∧
    sentence_text (sentence_load (F := Unit) ([tokA].map dump_token) (some treeW.head)) =
      sentence_text sdC4 ∧
    sentence_terminals (sentence_load (F := Unit) ([tokA].map dump_token) (some treeW.head)) =
      sentence_terminals sdC4 :=
  have h := dump_load_roundtrip sdC4 [tokA] treeW rfl rfl rfl
  ⟨h.1, h.2.1, h.2.2.1⟩

theorem run_sentences_progress {F : Type} (env : Env F) (cfg : JobConfig)
    (hp : cfg.progress = true) (sents : List (List Tok)) :
    ∀ st : JobStats,
      (run_sentences env cfg st sents).2 =
        (List.range sents.length).map
          (fun i => (((st.num_sent + i : ℕ) : ℚ) + 2) / (st.cnt_sent : ℚ)) := by
  induction sents with
  | nil =>
    intro st
    rfl
  | cons s rest ih =>
    intro st
    have h := jobParse_stats_shape env cfg st s
    show ((jobParse env cfg st s).progressCall.toList ++
        (run_sentences env cfg (jobParse env cfg st s).stats rest).2) = _
    rw [ih ((jobParse env cfg st s).stats), h.1, h.2.1, h.2.2, if_pos hp]
    simp only [List.length_cons]
    rw [List.range_succ_eq_map]
    simp only [List.map_cons, List.map_map, Option.toList_some, List.singleton_append]
    congr 1
    exact congrArg (fun f => List.map f (List.range rest.length)) (by
      funext i
      simp only [Function.comp]
      push_cast
      ring)

theorem le_ambigTerm (p : Nat × Nat) (h : 1 ≤ p.1) : (p.2 : ℝ) ≤ ambigTerm p := by
  unfold ambigTerm
  rcases Nat.eq_zero_or_pos p.2 with h2 | h2
  · rw [h2]
    norm_num
  · have hx : (1 : ℝ) ≤ (p.1 : ℝ) := by exact_mod_cast h
    have he : (0 : ℝ) ≤ 1 / (p.2 : ℝ) := by positivity
    have h1 : (1 : ℝ) ≤ (p.1 : ℝ) ^ ((1 : ℝ) / (p.2 : ℝ)) := by
      calc (1 : ℝ) = (p.1 : ℝ) ^ (0 : ℝ) := (Real.rpow_zero _).symm
      _ ≤ (p.1 : ℝ) ^ ((1 : ℝ) / (p.2 : ℝ)) := Real.rpow_le_rpow_of_exponent_le hx he
    exact le_mul_of_one_le_left (by positivity) h1

theorem sum_snd_le_total (l : List (Nat × Nat)) (h : ∀ p ∈ l, 1 ≤ p.1) :
    (l.map fun p => ((p.2 : ℕ) : ℝ)).sum ≤ (l.map ambigTerm).sum := by
  induction l with
  | nil => simp
  | cons a l ih =>
    simp only [List.map_cons, List.sum_cons]
    have ha := le_ambigTerm a (h a (List.mem_cons_self a l))
    have hl := ih fun p hp => h p (List.mem_cons_of_mem a hp)
    linarith

theorem inv_job_init_stats : job_init_stats.Inv := by
  decide

theorem inv_add_sentence (cfg : JobConfig) (st : JobStats) (s : List Tok) (num : Nat)
    (h : st.Inv) (hs : s ≠ []) : (add_sentence cfg st s num).1.Inv := by
  obtain ⟨htt, hnp, hall⟩ := h
  unfold add_sentence
  dsimp only
  by_cases hn : 0 < num
  · rw [if_pos hn]
    refine ⟨?_, ?_, ?_⟩
    · simp [htt]
    · simp [hnp]
    · intro p hp
      rcases List.mem_append.mp hp with hmem | hmem
      · exact hall p hmem
      · rcases List.mem_singleton.mp hmem with rfl
        exact ⟨hn, List.length_pos.mpr hs⟩
  · rw [if_neg hn]
    exact ⟨htt, hnp, hall⟩

theorem inv_jobParse {F : Type} (env : Env F) (cfg : JobConfig) (st : JobStats)
    (s : List Tok) (h : st.Inv) (hs : s ≠ []) : (jobParse env cfg st s).stats.Inv :=
  inv_add_sentence cfg st s (resultNum (jobParse_core env cfg s).1) h hs

/-- C2: with a progress function configured, a full job over a pre-segmented
token stream emits exactly the progress values
`(i + 1) / (totalSentences + 1)` for `i = 0, …, totalSentences` — the
initial "tokenization complete" call `1 / (total + 1)` followed by one call
per processed sentence — and this sequence is strictly increasing with
final value exactly `1`. -/
theorem progress_calls_spec {F : Type} (env : Env F) (cfg : JobConfig)
    (pgs : List (List (List Tok))) (hp : cfg.progress = true) :
    (run_job env cfg pgs).2 =
      (List.range (pgs.flatten.length + 1)).map
        (fun i : Nat => ((i : ℚ) + 1) / ((pgs.flatten.length : ℚ) + 1)) ∧
    List.Chain' (· < ·) (run_job env cfg pgs).2 ∧
    (run_job env cfg pgs).2.getLast? = some 1 := by
  have hT : (0 : ℚ) < (pgs.flatten.length : ℚ) + 1 := by positivity
  have hmain : (run_job env cfg pgs).2 =
      (List.range (pgs.flatten.length + 1)).map
        (fun i : Nat => ((i : ℚ) + 1) / ((pgs.flatten.length : ℚ) + 1)) := by
    unfold run_job
    rw [if_pos hp]
    dsimp only [job_init_stats]
    rw [run_sentences_progress env cfg hp pgs.flatten]
    rw [List.range_succ_eq_map]
    simp only [List.map_cons, List.map_map]
    congr 1
    · push_cast
      norm_num
    · congr 1
      funext i
      simp only [Function.comp]
      push_cast
      ring
  refine ⟨hmain, ?_, ?_⟩
  · rw [hmain]
    refine List.Pairwise.chain' ?_
    refine List.Pairwise.map _ ?_ (List.pairwise_lt_range _)
    intro a b hab
    have hab' : (a : ℚ) < (b : ℚ) := by exact_mod_cast hab
    rw [div_lt_div_iff₀ hT hT]
    exact mul_lt_mul_of_pos_right (by linarith) hT
  · rw [hmain, List.range_succ, List.map_append]
    simp only [List.map_cons, List.map_nil]
    rw [List.getLast?_concat]
    congr 1
    exact div_self (ne_of_gt hT)

/-- C2 witness: a two-paragraph three-sentence stream emits the progress
values `1/4, 2/4, 3/4, 1`. -/
theorem progress_calls_spec_witness :
    (run_job envU cfgProg pgsW).2 =
      (List.range (pgsW.flatten.length + 1)).map
        (fun i : Nat => ((i : ℚ) + 1) / ((pgsW.flatten.length : ℚ) + 1)) ∧
    List.Chain' (· < ·) (run_job envU cfgProg pgsW).2 ∧
    (run_job envU cfgProg pgsW).2.getLast? = some 1 :=
  progress_calls_spec envU cfgProg pgsW rfl

/-- C1 counterexample: the "exactly when" direction of the ambiguity claim
fails: a job whose single one-token sentence parsed successfully with
exactly one combination has `num_parsed = 1` yet `ambiguity = 1.0`
(its accumulator is `1 ** (1/1) * 1 = 1` over one summed token). -/
theorem ambiguity_eq_one_with_parsed_sentence :
    cstC1.num_parsed = 1 ∧ cstC1.ambiguity = 1 := by
  constructor
  · rfl
  · have h1 : cstC1.ambig = [(1, 1)] := rfl
    have h2 : cstC1.total_tokens = 1 := rfl
    unfold JobStats.ambiguity JobStats.total_ambig
    rw [h1, h2]
    norm_num [ambigTerm, Real.one_rpow]

/-- C1 (amended): for every reachable job state (`Inv` holds initially and
is preserved by every sentence added), `ambiguity ≥ 1.0`, and if no
sentence parsed successfully then `ambiguity = 1.0` — but not conversely:
`ambiguity` also equals `1.0` when every parsed sentence was unambiguous. -/
theorem ambiguity_lower_bound (st : JobStats) (hInv : st.Inv) :
    1 ≤ st.ambiguity ∧ (st.num_parsed = 0 → st.ambiguity = 1) := by
  obtain ⟨htt, hnp, hall⟩ := hInv
  constructor
  · unfold JobStats.ambiguity
    split
    · rename_i hpos
      rw [one_le_div (by exact_mod_cast hpos)]
      calc (st.total_tokens : ℝ)
          = ((st.ambig.map Prod.snd).map (fun n : ℕ => (n : ℝ))).sum := by
            rw [htt]
            exact Nat.cast_list_sum _
        _ = (st.ambig.map fun p => ((p.2 : ℕ) : ℝ)).sum := by
            rw [List.map_map]
            rfl
        _ ≤ (st.ambig.map ambigTerm).sum :=
            sum_snd_le_total _ fun p hp => (hall p hp).1
        _ = st.total_ambig := rfl
    · exact le_refl 1
  · intro h0
    have hl : st.ambig = [] := by
      refine List.length_eq_zero.mp ?_
      rw [← hnp]
      exact h0
    unfold JobStats.ambiguity
    rw [htt, hl]
    norm_num

/-- C1 witness: the lower bound applied to the concrete reachable job state
`cstC1`. -/
theorem ambiguity_lower_bound_witness :
    1 ≤ cstC1.ambiguity ∧ (cstC1.num_parsed = 0 → cstC1.ambiguity = 1) :=
  ambiguity_lower_bound cstC1 (by decide)

end Greynir

